import Mathlib

set_option maxRecDepth 100000

/-!
Verification of the OBJ-to-Lua mesh converter (`fbx_to_lua.py`).

Shallow embedding conventions:
* Python floats are modelled as rationals (`ℚ`); `float(...)` / `int(...)`
  are modelled on the ASCII decimal grammar (optional sign, digits, optional
  fraction and exponent).  The exotic inputs Python additionally accepts
  (`inf`, `nan`, underscore separators, non-ASCII digits) are outside the
  model, as is binary-double rounding noise in `%.Nf` formatting: the
  formatter below rounds the exact rational half-to-even.
* Fallible Python code (uncaught `ValueError` / `IndexError`) is modelled
  with `Option`: `none` means the run aborts with an uncaught exception.
* The file system is a pair of functions (existence, line contents); writing
  the output file is modelled by returning the full output text.
* All recursion is structural so that every definition evaluates by kernel
  reduction on concrete inputs.
-/

/-- Split a list of characters on whitespace runs, discarding empty pieces:
the behaviour of Python `str.strip().split()` on the characters of a line.
`cur` accumulates the current token in reverse. -/
def splitWsAux : List Char → List Char → List (List Char)
  | [], cur => if cur = [] then [] else [cur.reverse]
  | c :: rest, cur =>
    if c.isWhitespace then
      if cur = [] then splitWsAux rest []
      else cur.reverse :: splitWsAux rest []
    else splitWsAux rest (c :: cur)

/-- `line.strip().split()` of the source, line 45: whitespace-separated
tokens of a line. -/
def objTokens (s : String) : List String :=
  (splitWsAux s.toList []).map String.mk

/-- Split on a single separator character, keeping empty pieces: the
behaviour of Python `str.split('/')`.  Never returns `[]`. -/
def splitOnChar (sep : Char) : List Char → List Char → List (List Char)
  | [], cur => [cur.reverse]
  | c :: rest, cur =>
    if c = sep then cur.reverse :: splitOnChar sep rest []
    else splitOnChar sep rest (c :: cur)

/-- `vert.split('/')` of the source, line 60. -/
def splitSlash (s : String) : List String :=
  (splitOnChar '/' s.toList []).map String.mk

/-- Index of the last occurrence of `c` in `l`, if any (Python `str.rfind`). -/
def rfindChar (l : List Char) (c : Char) : Option ℕ :=
  ((List.range l.length).filter (fun i => l.getD i ' ' = c)).getLast?

/-- Position of the extension dot chosen by Python `os.path.splitext` (POSIX
rules): the last dot after the last `/`, provided some earlier character of
the basename is not a dot; `none` when the path has no extension. -/
def splitextDot (s : String) : Option ℕ :=
  let p := s.toList
  let sepIndex : ℤ := match rfindChar p '/' with | some i => (i : ℤ) | none => -1
  let dotIndex : ℤ := match rfindChar p '.' with | some i => (i : ℤ) | none => -1
  if sepIndex < dotIndex ∧
      ((List.range p.length).any
        (fun j => decide (sepIndex < (j : ℤ)) && decide ((j : ℤ) < dotIndex)
          && decide (p.getD j '.' ≠ '.'))) = true
  then some dotIndex.toNat
  else none

/-- `os.path.splitext(p)[0]`. -/
def splitextRoot (s : String) : String :=
  match splitextDot s with
  | some i => String.mk (s.toList.take i)
  | none => s

/-- `os.path.splitext(p)[1]`. -/
def splitextExt (s : String) : String :=
  match splitextDot s with
  | some i => String.mk (s.toList.drop i)
  | none => ""

/-- `os.path.basename(p)` on POSIX: the part after the last `/`. -/
def pyBasename (s : String) : String :=
  match rfindChar s.toList '/' with
  | some i => String.mk (s.toList.drop (i + 1))
  | none => s

/-- Python `str.lower()` (ASCII case, which is all the program compares). -/
def lowerStr (s : String) : String :=
  String.mk (s.toList.map Char.toLower)

/-- Numeric value of an ASCII digit character. -/
def digitVal (c : Char) : ℕ := c.toNat - 48

/-- Nonempty and all ASCII digits. -/
def isDigits (l : List Char) : Bool := !l.isEmpty && l.all Char.isDigit

/-- Decimal value of a digit list. -/
def digitsToNat (l : List Char) : ℕ := l.foldl (fun a c => a * 10 + digitVal c) 0

/-- Python `int(token)` on the ASCII decimal grammar: optional sign then one
or more digits; `none` models an uncaught `ValueError`. -/
def pyInt? (s : String) : Option ℤ :=
  match s.toList with
  | '+' :: r => if isDigits r then some (digitsToNat r : ℤ) else none
  | '-' :: r => if isDigits r then some (-(digitsToNat r : ℤ)) else none
  | l => if isDigits l then some (digitsToNat l : ℤ) else none

/-- Exponent part of a float literal: optional sign then digits. -/
def parseExp? (l : List Char) : Option ℤ :=
  match l with
  | '+' :: r => if isDigits r then some (digitsToNat r : ℤ) else none
  | '-' :: r => if isDigits r then some (-(digitsToNat r : ℤ)) else none
  | r => if isDigits r then some (digitsToNat r : ℤ) else none

/-- Value of a mantissa with integer digits `ip`, fraction digits `fp`, and
remaining characters `rest` (either empty or an exponent marker). -/
def parseAfterMant (ip fp rest : List Char) : Option ℚ :=
  if ip.isEmpty && fp.isEmpty then none
  else
    let mant : ℚ := (digitsToNat ip : ℚ) + (digitsToNat fp : ℚ) / (10 : ℚ) ^ fp.length
    match rest with
    | [] => some mant
    | c :: r =>
      if c = 'e' ∨ c = 'E' then (parseExp? r).map (fun ex => mant * (10 : ℚ) ^ ex)
      else none

/-- Unsigned float literal: digits, optional `.digits`, optional exponent. -/
def parseUnsigned? (l : List Char) : Option ℚ :=
  let s1 := l.span Char.isDigit
  match s1.2 with
  | '.' :: t =>
    let s2 := t.span Char.isDigit
    parseAfterMant s1.1 s2.1 s2.2
  | rest => parseAfterMant s1.1 [] rest

/-- Python `float(token)` on the ASCII decimal grammar; `none` models an
uncaught `ValueError`. -/
def pyFloat? (s : String) : Option ℚ :=
  match s.toList with
  | '+' :: r => parseUnsigned? r
  | '-' :: r => (parseUnsigned? r).map Neg.neg
  | l => parseUnsigned? l

/-- Decimal digit characters of `n`, most significant first (`fuel`-driven
structural recursion; `fuel ≥ n` suffices). -/
def natDigitsGo : ℕ → ℕ → List Char → List Char
  | 0, _, acc => acc
  | fuel + 1, n, acc =>
    if n = 0 then acc
    else natDigitsGo fuel (n / 10) (Char.ofNat (48 + n % 10) :: acc)

/-- Decimal rendering of a natural number (at least one digit). -/
def natDigits (n : ℕ) : List Char :=
  if n = 0 then ['0'] else natDigitsGo n n []

/-- Exactly `prec` decimal digits of `fp` (which satisfies `fp < 10^prec`
at every use site), zero-padded on the left. -/
def fixedDigits (prec fp : ℕ) : List Char :=
  (List.range prec).map (fun i => Char.ofNat (48 + fp / 10 ^ (prec - 1 - i) % 10))

/-- Round to the nearest integer, ties to even: the rounding of Python's
fixed-point float formatting, applied here to the exact rational. -/
def roundHalfEven (x : ℚ) : ℤ :=
  let n := x.floor
  let frac := x - (n : ℚ)
  if frac < 1 / 2 then n
  else if 1 / 2 < frac then n + 1
  else if n % 2 = 0 then n else n + 1

/-- Python `f"{x:.prec f}"` on the exact rational: sign, integer digits, a
dot, then exactly `prec` fraction digits. -/
def formatFixed (prec : ℕ) (x : ℚ) : String :=
  let scaled := roundHalfEven (x * (10 : ℚ) ^ prec)
  let sign := if x < 0 then "-" else ""
  let a := scaled.natAbs
  sign ++ String.mk (natDigits (a / 10 ^ prec)) ++ "." ++ String.mk (fixedDigits prec (a % 10 ^ prec))

/-- A triangle as stored in the `faces` list, line 72/74 of the source:
three vertex indices and an optional triple of UV indices. -/
abbrev Tri := ℤ × ℤ × ℤ

/-- One `faces` entry: vertex-index triple plus optional UV-index triple. -/
abbrev FaceData := Tri × Option Tri

/-- The three sequences accumulated by `convert_obj_to_lua`, lines 39-41. -/
structure ObjState where
  vertices : List (ℚ × ℚ × ℚ)
  uvs : List (ℚ × ℚ)
  faces : List FaceData
deriving DecidableEq

/-- The initial accumulator state (three empty lists). -/
def initState : ObjState := ⟨[], [], []⟩

/-- Lines 49-51 of the source: a `v` line reads `float(parts[1])`,
`float(parts[2])`, `float(parts[3])`; a missing token (`IndexError`) or a
failing `float` (`ValueError`) aborts.  `rest` is the token list after the
leading `v`. -/
def parseVLine (rest : List String) : Option (ℚ × ℚ × ℚ) :=
  match rest.get? 0 with
  | none => none
  | some t1 =>
    match pyFloat? t1 with
    | none => none
    | some x =>
      match rest.get? 1 with
      | none => none
      | some t2 =>
        match pyFloat? t2 with
        | none => none
        | some y =>
          match rest.get? 2 with
          | none => none
          | some t3 =>
            match pyFloat? t3 with
            | none => none
            | some z => some (x, y, z)

/-- Lines 52-54 of the source: a `vt` line reads `float(parts[1])` and
`float(parts[2])`. -/
def parseVtLine (rest : List String) : Option (ℚ × ℚ) :=
  match rest.get? 0 with
  | none => none
  | some t1 =>
    match pyFloat? t1 with
    | none => none
    | some u =>
      match rest.get? 1 with
      | none => none
      | some t2 =>
        match pyFloat? t2 with
        | none => none
        | some v => some (u, v)

/-- Lines 60-65 of the source: one face-vertex descriptor.  `indices[0]`
must parse as an integer; if `indices[1]` exists and is nonempty it must
parse as an integer and becomes the UV index. -/
def parseFaceVert (t : String) : Option (ℤ × Option ℤ) :=
  match pyInt? (splitSlash t).headI with
  | none => none
  | some v =>
    match (splitSlash t).get? 1 with
    | none => some (v, none)
    | some s =>
      if s = "" then some (v, none)
      else
        match pyInt? s with
        | none => none
        | some u => some (v, some u)

/-- Lines 57-65 of the source: fold `parseFaceVert` over the face tokens,
accumulating `face_verts` and `face_uvs` in order. -/
def parseFaceTokens : List String → Option (List ℤ × List ℤ)
  | [] => some ([], [])
  | t :: rest =>
    match parseFaceVert t with
    | none => none
    | some (v, u?) =>
      match parseFaceTokens rest with
      | none => none
      | some (fvs, fus) =>
        match u? with
        | some u => some (v :: fvs, u :: fus)
        | none => some (v :: fvs, fus)

/-- Lines 69-74 of the source, one loop iteration: build the `i`-th fan
triangle `(V[0], V[i+2], V[i+1])` and, when `face_uvs` is nonempty, the UV
triple `(U[0], U[i+2], U[i+1])`; an out-of-range list access
(`IndexError`) aborts. -/
def mkTri (fv fu : List ℤ) (i : ℕ) : Option FaceData :=
  match fv.get? 0 with
  | none => none
  | some a =>
    match fv.get? (i + 2) with
    | none => none
    | some b =>
      match fv.get? (i + 1) with
      | none => none
      | some c =>
        if fu = [] then some ((a, b, c), none)
        else
          match fu.get? 0 with
          | none => none
          | some ua =>
            match fu.get? (i + 2) with
            | none => none
            | some ub =>
              match fu.get? (i + 1) with
              | none => none
              | some uc => some ((a, b, c), some (ua, ub, uc))

/-- The triangulation loop of line 68, starting at index `i` with `k`
iterations left. -/
def triGo (fv fu : List ℤ) : ℕ → ℕ → Option (List FaceData)
  | _, 0 => some []
  | i, k + 1 =>
    match mkTri fv fu i with
    | none => none
    | some t =>
      match triGo fv fu (i + 1) k with
      | none => none
      | some rest => some (t :: rest)

/-- Lines 67-74 of the source: `for i in range(len(face_verts) - 2)`. -/
def triangulate (fv fu : List ℤ) : Option (List FaceData) :=
  triGo fv fu 0 (fv.length - 2)

/-- The value of the `i`-th fan triangle when all accesses are in range. -/
def faceAt (fv fu : List ℤ) (i : ℕ) : FaceData :=
  ((fv.getD 0 0, fv.getD (i + 2) 0, fv.getD (i + 1) 0),
   if fu = [] then none
   else some (fu.getD 0 0, fu.getD (i + 2) 0, fu.getD (i + 1) 0))

/-- Lines 44-74 of the source: process one input line, dispatching on the
leading token; `none` models an uncaught exception aborting the run. -/
def processLine (st : ObjState) (line : String) : Option ObjState :=
  match objTokens line with
  | [] => some st
  | t :: rest =>
    if t = "v" then
      match parseVLine rest with
      | none => none
      | some p => some ⟨st.vertices ++ [p], st.uvs, st.faces⟩
    else if t = "vt" then
      match parseVtLine rest with
      | none => none
      | some p => some ⟨st.vertices, st.uvs ++ [p], st.faces⟩
    else if t = "f" then
      match parseFaceTokens rest with
      | none => none
      | some (fv, fu) =>
        match triangulate fv fu with
        | none => none
        | some tris => some ⟨st.vertices, st.uvs, st.faces ++ tris⟩
    else some st

/-- The read loop of lines 43-74 over the remaining input lines. -/
def parseLinesFrom (st : ObjState) : List String → Option ObjState
  | [] => some st
  | l :: ls =>
    match processLine st l with
    | none => none
    | some st2 => parseLinesFrom st2 ls

/-- Parse a whole OBJ file given as its list of lines. -/
def parseObjLines (lines : List String) : Option ObjState :=
  parseLinesFrom initState lines

/-- Python list indexing `l[i]` with an `ℤ` index: negative indices count
from the end; `none` models an uncaught `IndexError`. -/
def pyIndex {α : Type} (l : List α) (i : ℤ) : Option α :=
  if i < 0 then
    if (l.length : ℤ) + i < 0 then none
    else l.get? ((l.length : ℤ) + i).toNat
  else l.get? i.toNat

/-- Line 83 of the source: one vertex-table entry,
`\tvec({x:.4f}, {y:.4f}, {z:.4f}),`. -/
def vertLine (v : ℚ × ℚ × ℚ) : String :=
  "\tvec(" ++ formatFixed 4 v.1 ++ ", " ++ formatFixed 4 v.2.1 ++ ", " ++ formatFixed 4 v.2.2 ++ "),\n"

/-- Lines 87-99 of the source: one face-table entry.  With UV indices and a
nonempty UV sequence, each UV is looked up 1-based (Python indexing, so a
write-time `IndexError` is `none`) and rendered as
`vec({u*16:.2f},{(1-v)*16:.2f})`; otherwise the fixed fallback triple is
emitted. -/
def faceLine (uvs : List (ℚ × ℚ)) (fd : FaceData) : Option String :=
  match fd.2 with
  | some tu =>
    if uvs = [] then
      some ("\t\x7b" ++ toString fd.1.1 ++ ", " ++ toString fd.1.2.1 ++ ", " ++ toString fd.1.2.2
        ++ ", 0, " ++ "vec(0,0), vec(16,0), vec(16,16)\x7d,\n")
    else
      match pyIndex uvs (tu.1 - 1) with
      | none => none
      | some uv1 =>
        match pyIndex uvs (tu.2.1 - 1) with
        | none => none
        | some uv2 =>
          match pyIndex uvs (tu.2.2 - 1) with
          | none => none
          | some uv3 =>
            some ("\t\x7b" ++ toString fd.1.1 ++ ", " ++ toString fd.1.2.1 ++ ", " ++ toString fd.1.2.2
              ++ ", 0, " ++ "vec(" ++ formatFixed 2 (uv1.1 * 16) ++ "," ++ formatFixed 2 ((1 - uv1.2) * 16)
              ++ "), vec(" ++ formatFixed 2 (uv2.1 * 16) ++ "," ++ formatFixed 2 ((1 - uv2.2) * 16)
              ++ "), vec(" ++ formatFixed 2 (uv3.1 * 16) ++ "," ++ formatFixed 2 ((1 - uv3.2) * 16)
              ++ ")\x7d,\n")
  | none =>
    some ("\t\x7b" ++ toString fd.1.1 ++ ", " ++ toString fd.1.2.1 ++ ", " ++ toString fd.1.2.2
      ++ ", 0, " ++ "vec(0,0), vec(16,0), vec(16,16)\x7d,\n")

/-- Map a fallible function over a list, failing at the first failure (the
sequential `for face_data in faces` write loop). -/
def optionMapList {α β : Type} (f : α → Option β) : List α → Option (List β)
  | [] => some []
  | a :: l =>
    match f a with
    | none => none
    | some b =>
      match optionMapList f l with
      | none => none
      | some bs => some (b :: bs)

/-- Lines 77-106 of the source: the full text written to the output file.
`none` models a write-time `IndexError` (UV index out of range). -/
def writeLuaContent (base : String) (st : ObjState) : Option String :=
  match optionMapList (faceLine st.uvs) st.faces with
  | none => none
  | some faceLines =>
    some ("-- Auto-generated from: " ++ base ++ "\n-- Picotron 3D Engine mesh format\n\n"
      ++ "local mesh_verts = \x7b\n" ++ String.join (st.vertices.map vertLine) ++ "\x7d\n\n"
      ++ "local mesh_faces = \x7b\n" ++ String.join faceLines ++ "\x7d\n\n"
      ++ "return \x7b\n\tverts = mesh_verts,\n\tfaces = mesh_faces,\n\tname = \"mesh\"\n\x7d\n")

/-- The file system visible to the program: existence of a path, and the
lines yielded by iterating an opened file. -/
structure FS where
  pathExists : String → Bool
  lines : String → List String

/-- Observable outcome of one run.  `exit1` is `sys.exit(1)` after printing
the listed messages; `ok` is a successful conversion (messages printed,
output path, full output text); `exn` is an uncaught exception raised
before the output file is opened (no output file is created or modified);
`exnWrite` is an uncaught exception after the output file was opened. -/
inductive RunResult where
  | exit1 : List String → RunResult
  | ok : List String → String → String → RunResult
  | exn : RunResult
  | exnWrite : RunResult
deriving DecidableEq

/-- Lines 113-118 of the source: the usage message. -/
def usageMsgs : List String :=
  ["Usage: python fbx_to_lua.py <input.fbx|input.obj> [output.lua]",
   "\nExample:",
   "  python fbx_to_lua.py building.fbx",
   "  python fbx_to_lua.py model.obj custom_output.lua"]

/-- Lines 23-31 of the source, `convert_fbx_to_lua`: computes a default
output path (unused) and then unconditionally prints the re-export-as-OBJ
guidance and exits 1.  The `HAS_FBX_SDK` flag of lines 16-20 is accepted
as an argument and, like in the source, never consulted. -/
def convertFbxToLua (hasFbxSdk : Bool) (fbxPath : String) (outputPath? : Option String) : RunResult :=
  RunResult.exit1
    ["Error: FBX conversion not supported",
     "Please export your model as OBJ format instead.",
     "Most 3D software (Blender, Maya, 3DS Max, etc.) can export to OBJ."]

/-- Lines 36-37 of the source: resolve the output path (default: input
with its extension replaced by `.lua`; Python's `if not output_path` also
treats an empty string as absent). -/
def resolveOutPath (objPath : String) (outputPath? : Option String) : String :=
  match outputPath? with
  | none => splitextRoot objPath ++ ".lua"
  | some s => if s = "" then splitextRoot objPath ++ ".lua" else s

/-- Lines 34-109 of the source, `convert_obj_to_lua` (continued): read and
parse the whole input, and only then open and write the output file. -/
def convertObjToLua (fs : FS) (objPath : String) (outputPath? : Option String) : RunResult :=
  match parseObjLines (fs.lines objPath) with
  | none => RunResult.exn
  | some st =>
    match writeLuaContent (pyBasename objPath) st with
    | none => RunResult.exnWrite
    | some content =>
      RunResult.ok
        ["Converted " ++ objPath ++ " -> " ++ resolveOutPath objPath outputPath?,
         "Vertices: " ++ toString st.vertices.length ++ ", Faces: " ++ toString st.faces.length]
        (resolveOutPath objPath outputPath?) content

/-- Lines 112-136 of the source, the `__main__` block: usage check,
existence check, then dispatch on the lower-cased extension. -/
def mainRun (hasFbxSdk : Bool) (fs : FS) (argv : List String) : RunResult :=
  if argv.length < 2 then RunResult.exit1 usageMsgs
  else if fs.pathExists (argv.getD 1 "") = false then
    RunResult.exit1 ["Error: File not found: " ++ argv.getD 1 ""]
  else if lowerStr (splitextExt (argv.getD 1 "")) = ".fbx" then
    convertFbxToLua hasFbxSdk (argv.getD 1 "") (argv.get? 2)
  else if lowerStr (splitextExt (argv.getD 1 "")) = ".obj" then
    convertObjToLua fs (argv.getD 1 "") (argv.get? 2)
  else
    RunResult.exit1 ["Error: Unsupported file format: " ++ lowerStr (splitextExt (argv.getD 1 "")),
      "Supported: .fbx, .obj"]

/-- Modelled from the spec (error-handling section, as amended): a `v`
line fails when fewer than three tokens follow or one of the first three
fails to parse as a float. -/
def specVBad (rest : List String) : Bool :=
  decide (rest.length < 3) || (rest.take 3).any (fun t => (pyFloat? t).isNone)

/-- Modelled from the spec (error-handling section, as amended): a `vt`
line fails when fewer than two tokens follow or one of the first two fails
to parse as a float. -/
def specVtBad (rest : List String) : Bool :=
  decide (rest.length < 2) || (rest.take 2).any (fun t => (pyFloat? t).isNone)

/-- A face-vertex descriptor whose second slash-field is present and
nonempty (it carries a UV index). -/
def hasUVField (t : String) : Bool :=
  match (splitSlash t).get? 1 with
  | none => false
  | some s => decide (s ≠ "")

/-- Modelled from the spec (as amended): a face-vertex descriptor that
aborts the parse — its first slash-field fails to parse as an integer, or
its second slash-field is present, nonempty, and fails to parse as an
integer. -/
def badVertTok (t : String) : Bool :=
  (pyInt? (splitSlash t).headI).isNone ||
  (match (splitSlash t).get? 1 with
   | none => false
   | some s => decide (s ≠ "") && (pyInt? s).isNone)

/-- Modelled from the spec (as amended): an `f` line aborts when some
descriptor is bad, or when the face has at least three vertices and a
nonempty UV-index list shorter than its vertex list. -/
def specFaceAborts (ts : List String) : Bool :=
  ts.any badVertTok ||
  (decide (3 ≤ ts.length) && decide (0 < (ts.filter hasUVField).length)
    && decide ((ts.filter hasUVField).length < ts.length))

/-- Modelled from the spec (error-handling section, as amended): the lines
on which the OBJ parser aborts with an uncaught failure. -/
def specLineAborts (line : String) : Bool :=
  match objTokens line with
  | [] => false
  | t :: rest =>
    if t = "v" then specVBad rest
    else if t = "vt" then specVtBad rest
    else if t = "f" then specFaceAborts rest
    else false

/-- A file system in which every path exists and every file is empty
(used to instantiate theorems at concrete inputs). -/
def fsAllEmpty : FS := ⟨fun _ => true, fun _ => []⟩

/-- A file system in which no path exists. -/
def fsNone : FS := ⟨fun _ => false, fun _ => []⟩

/-- A file system in which every file consists of the single malformed
line `v x` (its `v` token fails to parse as a float). -/
def fsBadVLine : FS := ⟨fun _ => true, fun _ => ["v x"]⟩

lemma get?_some_getD {α : Type} (l : List α) (i : ℕ) (d : α) (h : i < l.length) :
    l.get? i = some (l.getD i d) := by
  rw [List.getD_eq_getElem?_getD, List.get?_eq_getElem?]
  simp [List.getElem?_eq_getElem h]

lemma parseVLine_none_iff (rest : List String) :
    parseVLine rest = none ↔ specVBad rest = true := by
  match rest with
  | [] => simp [parseVLine, specVBad]
  | [a] => cases ha : pyFloat? a <;> simp [parseVLine, specVBad, ha]
  | [a, b] =>
    cases ha : pyFloat? a <;> cases hb : pyFloat? b <;>
      simp [parseVLine, specVBad, ha, hb]
  | a :: b :: c :: tl =>
    cases ha : pyFloat? a <;> cases hb : pyFloat? b <;> cases hc : pyFloat? c <;>
      simp [parseVLine, specVBad, ha, hb, hc]

lemma parseVtLine_none_iff (rest : List String) :
    parseVtLine rest = none ↔ specVtBad rest = true := by
  match rest with
  | [] => simp [parseVtLine, specVtBad]
  | [a] => cases ha : pyFloat? a <;> simp [parseVtLine, specVtBad, ha]
  | a :: b :: tl =>
    cases ha : pyFloat? a <;> cases hb : pyFloat? b <;>
      simp [parseVtLine, specVtBad, ha, hb]

lemma parseFaceVert_none_iff (t : String) :
    parseFaceVert t = none ↔ badVertTok t = true := by
  unfold parseFaceVert badVertTok
  cases hv : pyInt? (splitSlash t).headI with
  | none => simp
  | some v =>
    cases hs : (splitSlash t).get? 1 with
    | none => simp
    | some s =>
      by_cases he : s = ""
      · simp [he]
      · cases hu : pyInt? s <;> simp [he, hu]

lemma parseFaceVert_uv (t : String) (v : ℤ) (u? : Option ℤ)
    (h : parseFaceVert t = some (v, u?)) : u?.isSome = hasUVField t := by
  unfold parseFaceVert at h
  unfold hasUVField
  cases hv : pyInt? (splitSlash t).headI with
  | none => rw [hv] at h; exact absurd h (by simp)
  | some w =>
    rw [hv] at h
    cases hs : (splitSlash t).get? 1 with
    | none => rw [hs] at h; simp at h ⊢; simp [← h.2]
    | some s =>
      rw [hs] at h
      by_cases he : s = ""
      · simp [he] at h ⊢; simp [← h.2]
      · cases hu : pyInt? s with
        | none => simp [he, hu] at h
        | some u => simp [he, hu] at h ⊢; simp [← h.2, he]

lemma parseFaceTokens_none_iff (ts : List String) :
    parseFaceTokens ts = none ↔ ts.any badVertTok = true := by
  induction ts with
  | nil => simp [parseFaceTokens]
  | cons t rest ih =>
    cases hv : parseFaceVert t with
    | none =>
      have hb : badVertTok t = true := (parseFaceVert_none_iff t).mp hv
      simp [parseFaceTokens, hv, hb]
    | some p =>
      have hb : badVertTok t = false := by
        rcases hbt : badVertTok t with _ | _
        · rfl
        · exact absurd ((parseFaceVert_none_iff t).mpr hbt) (by simp [hv])
      cases hr : parseFaceTokens rest with
      | none => simp [parseFaceTokens, hv, hr, hb, ih.mp hr]
      | some q =>
        have : rest.any badVertTok = false := by
          rcases ha : rest.any badVertTok with _ | _
          · rfl
          · exact absurd (ih.mpr ha) (by simp [hr])
        cases p with
        | mk v u? =>
          cases u? <;> simp [parseFaceTokens, hv, hr, hb, this]

lemma parseFaceTokens_lengths (ts : List String) (fv fu : List ℤ)
    (h : parseFaceTokens ts = some (fv, fu)) :
    fv.length = ts.length ∧ fu.length = (ts.filter hasUVField).length := by
  induction ts generalizing fv fu with
  | nil => simp [parseFaceTokens] at h; simp [h.1, h.2]
  | cons t rest ih =>
    unfold parseFaceTokens at h
    cases hv : parseFaceVert t with
    | none => rw [hv] at h; exact absurd h (by simp)
    | some p =>
      rw [hv] at h
      cases hr : parseFaceTokens rest with
      | none => rw [hr] at h; exact absurd h (by simp)
      | some q =>
        rw [hr] at h
        cases p with
        | mk v u? =>
          have huv := parseFaceVert_uv t v u? hv
          cases q with
          | mk fvs fus =>
            rcases ih fvs fus hr with ⟨ih1, ih2⟩
            cases u? with
            | none =>
              simp at h
              simp [← h.1, ← h.2, ih1, ih2, List.filter, ← huv]
            | some u =>
              simp at h
              simp [← h.1, ← h.2, ih1, ih2, List.filter, ← huv]

lemma mkTri_eq (fv fu : List ℤ) (i : ℕ) (hb : i + 3 ≤ fv.length)
    (hm : fu = [] ∨ fv.length ≤ fu.length) :
    mkTri fv fu i = some (faceAt fv fu i) := by
  unfold mkTri faceAt
  rw [get?_some_getD fv 0 0 (by omega), get?_some_getD fv (i + 2) 0 (by omega),
    get?_some_getD fv (i + 1) 0 (by omega)]
  rcases hm with hm | hm
  · simp [hm]
  · have h0 : 0 < fu.length := by omega
    rw [if_neg (by intro hc; rw [hc] at h0; simp at h0)]
    rw [get?_some_getD fu 0 0 (by omega), get?_some_getD fu (i + 2) 0 (by omega),
      get?_some_getD fu (i + 1) 0 (by omega)]
    simp [show fu ≠ [] from by intro hc; rw [hc] at h0; simp at h0]

lemma triGo_eq (fv fu : List ℤ) (hm : fu = [] ∨ fv.length ≤ fu.length) :
    ∀ (k i : ℕ), (i + k + 2 ≤ fv.length ∨ k = 0) →
      triGo fv fu i k = some ((List.range k).map (fun j => faceAt fv fu (i + j))) := by
  intro k
  induction k with
  | zero => intro i _; simp [triGo]
  | succ k ih =>
    intro i hk
    rcases hk with hk | hk
    · have h1 : mkTri fv fu i = some (faceAt fv fu i) := mkTri_eq fv fu i (by omega) hm
      have h2 : triGo fv fu (i + 1) k = some ((List.range k).map (fun j => faceAt fv fu (i + 1 + j))) := by
        rcases Nat.eq_zero_or_pos k with hz | hz
        · exact ih (i + 1) (Or.inr hz)
        · exact ih (i + 1) (Or.inl (by omega))
      have h3 : (List.range (k + 1)).map (fun j => faceAt fv fu (i + j))
          = faceAt fv fu i :: (List.range k).map (fun j => faceAt fv fu (i + 1 + j)) := by
        rw [List.range_succ_eq_map, List.map_cons, List.map_map]
        simp only [Nat.add_zero]
        congr 1
        apply List.map_congr_left
        intro j _
        simp only [Function.comp_apply]
        congr 1
        omega
      unfold triGo
      rw [h1, h2, h3]
    · omega

lemma triangulate_eq (fv fu : List ℤ) (h3 : 3 ≤ fv.length)
    (hm : fu = [] ∨ fv.length ≤ fu.length) :
    triangulate fv fu = some ((List.range (fv.length - 2)).map (faceAt fv fu)) := by
  unfold triangulate
  rw [triGo_eq fv fu hm (fv.length - 2) 0 (Or.inl (by omega))]
  congr 1
  apply List.map_congr_left
  intro j _
  congr 1
  omega

lemma triangulate_isSome (fv fu : List ℤ) (hm : fu = [] ∨ fv.length ≤ fu.length) :
    (triangulate fv fu).isSome = true := by
  rcases Nat.lt_or_ge fv.length 3 with hlen | hlen
  · have hz : fv.length - 2 = 0 := by omega
    unfold triangulate
    rw [hz]
    simp [triGo]
  · rw [triangulate_eq fv fu hlen hm]; rfl

lemma mkTri_none (fv fu : List ℤ) (i : ℕ) (hne : fu ≠ []) (hsh : fu.length ≤ i + 2) :
    mkTri fv fu i = none := by
  unfold mkTri
  cases h0 : fv.get? 0 with
  | none => rfl
  | some a =>
    cases h2 : fv.get? (i + 2) with
    | none => rfl
    | some b =>
      cases h1 : fv.get? (i + 1) with
      | none => rfl
      | some c =>
        cases hu0 : fu.get? 0 <;>
          simp [hne, hu0, List.get?_eq_none.mpr hsh, List.getElem?_eq_none hsh]

lemma triGo_none (fv fu : List ℤ) (hne : fu ≠ []) :
    ∀ (k i : ℕ), 1 ≤ k → fu.length ≤ i + k + 1 → triGo fv fu i k = none := by
  intro k
  induction k with
  | zero => omega
  | succ k ih =>
    intro i _ hlen
    rcases Nat.eq_zero_or_pos k with hz | hz
    · subst hz
      unfold triGo
      rw [mkTri_none fv fu i hne (by omega)]
    · unfold triGo
      cases hm : mkTri fv fu i with
      | none => rfl
      | some t => rw [ih (i + 1) hz (by omega)]

lemma triangulate_none (fv fu : List ℤ) (h3 : 3 ≤ fv.length) (hne : fu ≠ [])
    (hsh : fu.length < fv.length) : triangulate fv fu = none := by
  unfold triangulate
  exact triGo_none fv fu hne (fv.length - 2) 0 (by omega) (by omega)

lemma triangulate_none_iff (fv fu : List ℤ) :
    triangulate fv fu = none ↔ (3 ≤ fv.length ∧ fu ≠ [] ∧ fu.length < fv.length) := by
  constructor
  · intro h
    by_contra hc
    push_neg at hc
    have hsome : (triangulate fv fu).isSome = true := by
      rcases Nat.lt_or_ge fv.length 3 with hlen | hlen
      · unfold triangulate
        rw [show fv.length - 2 = 0 from by omega]
        simp [triGo]
      · rcases eq_or_ne fu [] with hnil | hne
        · exact triangulate_isSome fv fu (Or.inl hnil)
        · exact triangulate_isSome fv fu (Or.inr (hc hlen hne))
    rw [h] at hsome; simp at hsome
  · intro ⟨h3, hne, hsh⟩
    exact triangulate_none fv fu h3 hne hsh

lemma processLine_empty (st : ObjState) (line : String) (ht : objTokens line = []) :
    processLine st line = some st := by
  unfold processLine
  simp [ht]

lemma processLine_other (st : ObjState) (line : String) (t : String) (rest : List String)
    (ht : objTokens line = t :: rest) (h1 : t ≠ "v") (h2 : t ≠ "vt") (h3 : t ≠ "f") :
    processLine st line = some st := by
  unfold processLine
  simp [ht, h1, h2, h3]

lemma processLine_none_iff (st : ObjState) (line : String) :
    processLine st line = none ↔ specLineAborts line = true := by
  unfold processLine specLineAborts
  cases ht : objTokens line with
  | nil => simp
  | cons t rest =>
    dsimp only
    by_cases hv : t = "v"
    · subst hv
      simp only [if_pos rfl]
      cases hp : parseVLine rest with
      | none => simp [(parseVLine_none_iff rest).mp hp]
      | some p =>
        have hb : ¬ specVBad rest = true := fun hb => by
          rw [(parseVLine_none_iff rest).mpr hb] at hp; exact Option.noConfusion hp
        simp [hb]
    · rw [if_neg hv, if_neg hv]
      by_cases hvt : t = "vt"
      · subst hvt
        simp only [if_pos rfl]
        cases hp : parseVtLine rest with
        | none => simp [(parseVtLine_none_iff rest).mp hp]
        | some p =>
          have hb : ¬ specVtBad rest = true := fun hb => by
            rw [(parseVtLine_none_iff rest).mpr hb] at hp; exact Option.noConfusion hp
          simp [hb]
      · rw [if_neg hvt, if_neg hvt]
        by_cases hf : t = "f"
        · subst hf
          simp only [if_pos rfl]
          cases hp : parseFaceTokens rest with
          | none => simp [specFaceAborts, (parseFaceTokens_none_iff rest).mp hp]
          | some p =>
            have hany : rest.any badVertTok = false := by
              cases hb : rest.any badVertTok with
              | false => rfl
              | true =>
                rw [(parseFaceTokens_none_iff rest).mpr hb] at hp
                exact Option.noConfusion hp
            cases p with
            | mk fv fu =>
              rcases parseFaceTokens_lengths rest fv fu hp with ⟨hl1, hl2⟩
              cases htr : triangulate fv fu with
              | none =>
                rcases (triangulate_none_iff fv fu).mp htr with ⟨h3, hne, hsh⟩
                have hpos : 0 < fu.length := List.length_pos.mpr hne
                dsimp only
                rw [htr]
                simp [specFaceAborts, hany]
                omega
              | some tris =>
                have hnot : ¬ (3 ≤ rest.length ∧ 0 < (rest.filter hasUVField).length
                    ∧ (rest.filter hasUVField).length < rest.length) := by
                  intro ⟨hc1, hc2, hc3⟩
                  have hne : fu ≠ [] := by
                    intro hnil
                    rw [hnil] at hl2
                    simp at hl2
                    omega
                  rw [triangulate_none fv fu (by omega) hne (by omega)] at htr
                  exact Option.noConfusion htr
                dsimp only
                rw [htr]
                simp [specFaceAborts, hany]
                omega
        · rw [if_neg hf, if_neg hf]
          simp

lemma ofNat_digit_isDigit (d : ℕ) (hd : d < 10) : (Char.ofNat (48 + d)).isDigit = true := by
  interval_cases d <;> decide

lemma natDigitsGo_digits (fuel : ℕ) :
    ∀ (n : ℕ) (acc : List Char), (∀ c ∈ acc, c.isDigit = true) →
      ∀ c ∈ natDigitsGo fuel n acc, c.isDigit = true := by
  induction fuel with
  | zero => intro n acc hacc c hc; simp only [natDigitsGo] at hc; exact hacc c hc
  | succ fuel ih =>
    intro n acc hacc c hc
    unfold natDigitsGo at hc
    by_cases hn : n = 0
    · rw [if_pos hn] at hc; exact hacc c hc
    · rw [if_neg hn] at hc
      refine ih (n / 10) _ ?_ c hc
      intro d hd
      rcases List.mem_cons.mp hd with hd | hd
      · subst hd; exact ofNat_digit_isDigit _ (Nat.mod_lt _ (by norm_num))
      · exact hacc d hd

lemma natDigits_digits (n : ℕ) : ∀ c ∈ natDigits n, c.isDigit = true := by
  unfold natDigits
  by_cases hn : n = 0
  · rw [if_pos hn]; intro c hc; rcases List.mem_singleton.mp hc with rfl; decide
  · rw [if_neg hn]
    exact natDigitsGo_digits n n [] (by intro c hc; exact absurd hc (List.not_mem_nil c))

lemma fixedDigits_length (prec fp : ℕ) : (fixedDigits prec fp).length = prec := by
  simp [fixedDigits]

lemma fixedDigits_digits (prec fp : ℕ) : ∀ c ∈ fixedDigits prec fp, c.isDigit = true := by
  intro c hc
  simp only [fixedDigits, List.mem_map, List.mem_range] at hc
  rcases hc with ⟨i, _, rfl⟩
  exact ofNat_digit_isDigit _ (Nat.mod_lt _ (by norm_num))

lemma formatFixed_decomp (prec : ℕ) (x : ℚ) :
    ∃ hd digs : String, formatFixed prec x = hd ++ "." ++ digs ∧ digs.length = prec ∧
      digs.toList.all Char.isDigit = true ∧ '.' ∉ hd.toList := by
  refine ⟨(if x < 0 then "-" else "")
      ++ String.mk (natDigits ((roundHalfEven (x * (10 : ℚ) ^ prec)).natAbs / 10 ^ prec)),
    String.mk (fixedDigits prec ((roundHalfEven (x * (10 : ℚ) ^ prec)).natAbs % 10 ^ prec)),
    rfl, by simp [fixedDigits_length], ?_, ?_⟩
  · rw [List.all_eq_true]
    intro c hc
    simp only [String.toList] at hc
    exact fixedDigits_digits _ _ c hc
  · intro hmem
    simp only [String.toList] at hmem
    rw [show ((if x < 0 then "-" else "")
        ++ String.mk (natDigits ((roundHalfEven (x * (10 : ℚ) ^ prec)).natAbs / 10 ^ prec))).data
      = (if x < 0 then "-" else "").data
        ++ natDigits ((roundHalfEven (x * (10 : ℚ) ^ prec)).natAbs / 10 ^ prec) from by
        cases h : decide (x < 0) <;> simp [String.toList]] at hmem
    rcases List.mem_append.mp hmem with hmem | hmem
    · by_cases hx : x < 0
      · rw [if_pos hx] at hmem; exact absurd hmem (by decide)
      · rw [if_neg hx] at hmem; exact absurd hmem (by decide)
    · have := natDigits_digits _ _ hmem
      exact absurd this (by decide)

lemma pyIndex_some_of_bounds (l : List (ℚ × ℚ)) (i : ℤ) (h1 : 1 ≤ i) (h2 : i ≤ (l.length : ℤ)) :
    ∃ p, pyIndex l (i - 1) = some p := by
  unfold pyIndex
  rw [if_neg (by omega)]
  have hlt : (i - 1).toNat < l.length := by omega
  exact ⟨l.getD (i - 1).toNat (0, 0), get?_some_getD l _ _ hlt⟩

lemma faceLine_fallback (uvs : List (ℚ × ℚ)) (tri : Tri) (tu : Option Tri)
    (h : tu = none ∨ uvs = []) :
    faceLine uvs (tri, tu) = some ("\t\x7b" ++ toString tri.1 ++ ", " ++ toString tri.2.1 ++ ", "
      ++ toString tri.2.2 ++ ", 0, " ++ "vec(0,0), vec(16,0), vec(16,16)\x7d,\n") := by
  rcases h with h | h
  · subst h; rfl
  · subst h
    cases tu with
    | none => rfl
    | some t => rfl

lemma faceLine_shape (uvs : List (ℚ × ℚ)) (tri : Tri) (tu : Option Tri) (s : String)
    (h : faceLine uvs (tri, tu) = some s) :
    ∃ rest, s = "\t\x7b" ++ toString tri.1 ++ ", " ++ toString tri.2.1 ++ ", "
      ++ toString tri.2.2 ++ ", 0, " ++ rest := by
  unfold faceLine at h
  dsimp only at h
  cases tu with
  | none =>
    simp only [Option.some.injEq] at h
    exact ⟨"vec(0,0), vec(16,0), vec(16,16)\x7d,\n", h.symm⟩
  | some t =>
    dsimp only at h
    by_cases hu : uvs = []
    · rw [if_pos hu] at h
      simp only [Option.some.injEq] at h
      exact ⟨"vec(0,0), vec(16,0), vec(16,16)\x7d,\n", h.symm⟩
    · rw [if_neg hu] at h
      cases h1 : pyIndex uvs (t.1 - 1) with
      | none => rw [h1] at h; exact Option.noConfusion h
      | some uv1 =>
        rw [h1] at h
        cases h2 : pyIndex uvs (t.2.1 - 1) with
        | none => rw [h2] at h; exact Option.noConfusion h
        | some uv2 =>
          rw [h2] at h
          cases h3 : pyIndex uvs (t.2.2 - 1) with
          | none => rw [h3] at h; exact Option.noConfusion h
          | some uv3 =>
            rw [h3] at h
            simp only [Option.some.injEq] at h
            refine ⟨"vec(" ++ formatFixed 2 (uv1.1 * 16) ++ "," ++ formatFixed 2 ((1 - uv1.2) * 16)
              ++ "), vec(" ++ formatFixed 2 (uv2.1 * 16) ++ "," ++ formatFixed 2 ((1 - uv2.2) * 16)
              ++ "), vec(" ++ formatFixed 2 (uv3.1 * 16) ++ "," ++ formatFixed 2 ((1 - uv3.2) * 16)
              ++ ")\x7d,\n", ?_⟩
            rw [← h]
            simp only [String.append_assoc]

lemma faceLine_isSome_of_bounds (uvs : List (ℚ × ℚ)) (tri : Tri) (tu : Option Tri)
    (hb : ∀ t : Tri, tu = some t →
      1 ≤ t.1 ∧ t.1 ≤ (uvs.length : ℤ) ∧ 1 ≤ t.2.1 ∧ t.2.1 ≤ (uvs.length : ℤ)
        ∧ 1 ≤ t.2.2 ∧ t.2.2 ≤ (uvs.length : ℤ)) :
    (faceLine uvs (tri, tu)).isSome = true := by
  cases tu with
  | none => rfl
  | some t =>
    by_cases hu : uvs = []
    · unfold faceLine
      dsimp only
      rw [if_pos hu]
      rfl
    · rcases hb t rfl with ⟨b1, b2, b3, b4, b5, b6⟩
      rcases pyIndex_some_of_bounds uvs t.1 b1 b2 with ⟨p1, hp1⟩
      rcases pyIndex_some_of_bounds uvs t.2.1 b3 b4 with ⟨p2, hp2⟩
      rcases pyIndex_some_of_bounds uvs t.2.2 b5 b6 with ⟨p3, hp3⟩
      unfold faceLine
      dsimp only
      rw [if_neg hu, hp1, hp2, hp3]
      rfl

lemma optionMapList_isSome {α β : Type} (f : α → Option β) (l : List α)
    (h : ∀ a ∈ l, (f a).isSome = true) : (optionMapList f l).isSome = true := by
  induction l with
  | nil => rfl
  | cons a t ih =>
    have ha := h a (by simp)
    unfold optionMapList
    cases hfa : f a with
    | none => rw [hfa] at ha; exact absurd ha (by simp)
    | some b =>
      have ht := ih (fun x hx => h x (by simp [hx]))
      cases hr : optionMapList f t with
      | none => rw [hr] at ht; exact absurd ht (by simp)
      | some bs => rfl

lemma writeLuaContent_isSome (base : String) (st : ObjState)
    (h : ∀ f ∈ st.faces, (faceLine st.uvs f).isSome = true) :
    (writeLuaContent base st).isSome = true := by
  unfold writeLuaContent
  have hm := optionMapList_isSome (faceLine st.uvs) st.faces h
  cases hr : optionMapList (faceLine st.uvs) st.faces with
  | none => rw [hr] at hm; exact absurd hm (by simp)
  | some ls => rfl

/-- C1: for a parsed face with vertex-index list `fv` (`n ≥ 3`) and UV-index
list `fu` of equal length (or empty), the converter emits exactly `n - 2`
triangles, the `i`-th being `(V[0], V[i+2], V[i+1])` with, when `fu` is
nonempty, the identically permuted UV triple `(U[0], U[i+2], U[i+1])`
(this is `faceAt`); in particular the count of emitted triangles is `n - 2`. -/
theorem c1_fan_triangulation (fv fu : List ℤ) (h3 : 3 ≤ fv.length)
    (hu : fu = [] ∨ fu.length = fv.length) :
    triangulate fv fu = some ((List.range (fv.length - 2)).map (faceAt fv fu)) ∧
    ((List.range (fv.length - 2)).map (faceAt fv fu)).length = fv.length - 2 := by
  constructor
  · refine triangulate_eq fv fu h3 ?_
    rcases hu with h | h
    · exact Or.inl h
    · exact Or.inr (by omega)
  · simp

/-- C1 witness: the quad face `f 1 2 3 4` with no UVs yields exactly the two
triangles `(1,3,2)` (for `i = 0`) and `(1,4,3)` (for `i = 1`). -/
theorem c1_fan_triangulation_witness :
    triangulate [1, 2, 3, 4] [] = some ((List.range 2).map (faceAt [1, 2, 3, 4] [])) ∧
    ((List.range 2).map (faceAt [1, 2, 3, 4] [])).length = 2 ∧
    (List.range 2).map (faceAt [1, 2, 3, 4] []) = [((1, 3, 2), none), ((1, 4, 3), none)] :=
  ⟨(c1_fan_triangulation [1, 2, 3, 4] [] (by decide) (Or.inl rfl)).1,
   (c1_fan_triangulation [1, 2, 3, 4] [] (by decide) (Or.inl rfl)).2, by decide⟩

/-- C9: a face whose UV-index list is nonempty but shorter than its vertex
list ( `n ≥ 3`) makes the triangulation index past the end of the UV list
and abort; the triangulation is total when every vertex carries a UV index
or none does. -/
theorem c9_mixed_uv_aborts (fv fu : List ℤ) :
    (3 ≤ fv.length → fu ≠ [] → fu.length < fv.length → triangulate fv fu = none) ∧
    ((fu = [] ∨ fu.length = fv.length) → (triangulate fv fu).isSome = true) := by
  constructor
  · exact fun h3 hne hsh => triangulate_none fv fu h3 hne hsh
  · intro h
    rcases h with h | h
    · exact triangulate_isSome fv fu (Or.inl h)
    · exact triangulate_isSome fv fu (Or.inr (by omega))

/-- C9 witness: the face `f 1/1 2 3` (vertex list `[1,2,3]`, UV list `[1]`)
aborts, while the all-UV face succeeds. -/
theorem c9_mixed_uv_aborts_witness :
    triangulate [1, 2, 3] [1] = none ∧ (triangulate [1, 2, 3] [1, 2, 3]).isSome = true :=
  ⟨(c9_mixed_uv_aborts [1, 2, 3] [1]).1 (by decide) (by decide) (by decide),
   (c9_mixed_uv_aborts [1, 2, 3] [1, 2, 3]).2 (Or.inr (by decide))⟩

/-- C3: a triangle with no UV data — no per-face UV indices, or an empty
global UV sequence — is serialized with exactly the literal fallback UV
triple `vec(0,0), vec(16,0), vec(16,16)`. -/
theorem c3_fallback_uv_triple (uvs : List (ℚ × ℚ)) (tri : Tri) (tu : Option Tri)
    (h : tu = none ∨ uvs = []) :
    faceLine uvs (tri, tu) = some ("\t\x7b" ++ toString tri.1 ++ ", " ++ toString tri.2.1 ++ ", "
      ++ toString tri.2.2 ++ ", 0, " ++ "vec(0,0), vec(16,0), vec(16,16)\x7d,\n") :=
  faceLine_fallback uvs tri tu h

/-- C3 witness: a triangle that carries UV indices but whose file has an
empty UV sequence still gets the fallback triple. -/
theorem c3_fallback_uv_triple_witness :
    faceLine [] ((1, 3, 2), some (1, 1, 1))
      = some ("\t\x7b" ++ toString (1 : ℤ) ++ ", " ++ toString (3 : ℤ) ++ ", "
        ++ toString (2 : ℤ) ++ ", 0, " ++ "vec(0,0), vec(16,0), vec(16,16)\x7d,\n") :=
  c3_fallback_uv_triple [] (1, 3, 2) (some (1, 1, 1)) (Or.inr rfl)

/-- C10: the output file is opened only after the whole input is parsed, so
a run whose parse aborts yields `RunResult.exn`, the outcome in which the
output path is never created or modified. -/
theorem c10_no_output_on_parse_abort (fs : FS) (objPath : String) (out? : Option String)
    (h : parseObjLines (fs.lines objPath) = none) :
    convertObjToLua fs objPath out? = RunResult.exn := by
  unfold convertObjToLua
  rw [h]

/-- C10 witness: a file whose only line is the malformed `v x` aborts the
parse and the output file is never opened. -/
theorem c10_no_output_on_parse_abort_witness :
    convertObjToLua fsBadVLine "model.obj" none = RunResult.exn :=
  c10_no_output_on_parse_abort fsBadVLine "model.obj" none (by decide)

/-- C2 counterexample: the claimed "aborts if and only if" enumeration is
wrong on three concrete lines.  `f 1/x` has one vertex token whose first
slash-field `1` parses as an integer, so the claim places it outside the
abort set, yet the parser aborts (the second slash-field fails `int`);
`f` has fewer than one vertex token, which the claim puts inside the abort
set, yet the parser accepts it unchanged; `f 1/1 2 3` has every first
slash-field parsing as an integer, yet the parser aborts (UV list shorter
than the vertex list). -/
theorem c2_counterexample :
    processLine initState "f 1/x" = none ∧
    objTokens "f 1/x" = ["f", "1/x"] ∧
    splitSlash "1/x" = ["1", "x"] ∧
    pyInt? "1" = some 1 ∧
    processLine initState "f" = some initState ∧
    objTokens "f" = ["f"] ∧
    processLine initState "f 1/1 2 3" = none ∧
    (["1/1", "2", "3"].all fun t => (pyInt? ((splitSlash t).headI)).isSome) = true := by
  refine ⟨by decide, by decide, by decide, by decide, by decide, by decide, by decide, by decide⟩

/-- C2 (amended): the OBJ parser aborts on a line iff its leading token is
`v` or `vt` with too few following tokens or one of the required ones
failing to parse as a float, or its leading token is `f` and either some
descriptor has an unparsable first slash-field or a present, nonempty,
unparsable second slash-field, or the face has at least three vertices and
a nonempty UV-index list shorter than its vertex list; every other line
(empty, or any other leading token) is ignored and leaves the accumulated
state unchanged. -/
theorem c2_parse_abort_characterization (st : ObjState) (line : String) :
    (processLine st line = none ↔ specLineAborts line = true) ∧
    (objTokens line = [] → processLine st line = some st) ∧
    (∀ t rest, objTokens line = t :: rest → t ≠ "v" → t ≠ "vt" → t ≠ "f" →
      processLine st line = some st) :=
  ⟨processLine_none_iff st line,
   fun h => processLine_empty st line h,
   fun t rest ht h1 h2 h3 => processLine_other st line t rest ht h1 h2 h3⟩

/-- C2 witness: a malformed `v` line aborts; a `vn` line and an empty line
are ignored without changing the state. -/
theorem c2_parse_abort_characterization_witness :
    processLine initState "v x 0 0" = none ∧
    processLine initState "vn 1 2" = some initState ∧
    processLine initState "" = some initState :=
  ⟨(c2_parse_abort_characterization initState "v x 0 0").1.mpr (by decide),
   (c2_parse_abort_characterization initState "vn 1 2").2.2 "vn" ["1", "2"]
     (by decide) (by decide) (by decide) (by decide),
   (c2_parse_abort_characterization initState "").2.1 (by decide)⟩

/-- C6: every serialized face entry starts with the three vertex indices
exactly as stored (1-based pass-through, no remapping) followed by the
constant fourth field `0`; and when every stored UV index lies within
`[1, len(uvs)]`, every face entry — and hence the whole output — is
produced without any out-of-range access, so the emitted indices are the
stored in-range ones. -/
theorem c6_passthrough_and_bounds :
    (∀ (uvs : List (ℚ × ℚ)) (tri : Tri) (tu : Option Tri) (s : String),
      faceLine uvs (tri, tu) = some s →
      ∃ rest, s = "\t\x7b" ++ toString tri.1 ++ ", " ++ toString tri.2.1 ++ ", "
        ++ toString tri.2.2 ++ ", 0, " ++ rest) ∧
    (∀ (uvs : List (ℚ × ℚ)) (tri : Tri) (tu : Option Tri),
      (∀ t : Tri, tu = some t →
        1 ≤ t.1 ∧ t.1 ≤ (uvs.length : ℤ) ∧ 1 ≤ t.2.1 ∧ t.2.1 ≤ (uvs.length : ℤ)
          ∧ 1 ≤ t.2.2 ∧ t.2.2 ≤ (uvs.length : ℤ)) →
      (faceLine uvs (tri, tu)).isSome = true) ∧
    (∀ (base : String) (st : ObjState),
      (∀ f ∈ st.faces, ∀ t : Tri, f.2 = some t →
        1 ≤ t.1 ∧ t.1 ≤ (st.uvs.length : ℤ) ∧ 1 ≤ t.2.1 ∧ t.2.1 ≤ (st.uvs.length : ℤ)
          ∧ 1 ≤ t.2.2 ∧ t.2.2 ≤ (st.uvs.length : ℤ)) →
      (writeLuaContent base st).isSome = true) := by
  refine ⟨fun uvs tri tu s h => faceLine_shape uvs tri tu s h,
    fun uvs tri tu hb => faceLine_isSome_of_bounds uvs tri tu hb,
    fun base st h => writeLuaContent_isSome base st ?_⟩
  intro f hf
  exact faceLine_isSome_of_bounds st.uvs f.1 f.2 (fun t ht => h f hf t ht)

/-- C6 witness: the serialized entry of the stored triangle `(1,3,2)` starts
with `1, 3, 2, 0,`; a UV triple within bounds serializes successfully, both
for one entry and for a whole state. -/
theorem c6_passthrough_and_bounds_witness :
    (∃ rest, ("\t\x7b" ++ toString (1 : ℤ) ++ ", " ++ toString (3 : ℤ) ++ ", "
        ++ toString (2 : ℤ) ++ ", 0, " ++ "vec(0,0), vec(16,0), vec(16,16)\x7d,\n")
      = "\t\x7b" ++ toString (1 : ℤ) ++ ", " ++ toString (3 : ℤ) ++ ", "
        ++ toString (2 : ℤ) ++ ", 0, " ++ rest) ∧
    (faceLine [(0, 0)] ((1, 2, 3), some (1, 1, 1))).isSome = true ∧
    (writeLuaContent "m" ⟨[], [(0, 0)], [((1, 2, 3), some (1, 1, 1))]⟩).isSome = true :=
  ⟨c6_passthrough_and_bounds.1 [] (1, 3, 2) none _ rfl,
   c6_passthrough_and_bounds.2.1 [(0, 0)] (1, 2, 3) (some (1, 1, 1))
     (fun t ht => by cases Option.some.inj ht; decide),
   c6_passthrough_and_bounds.2.2 "m" ⟨[], [(0, 0)], [((1, 2, 3), some (1, 1, 1))]⟩
     (by
       intro f hf t ht
       rcases List.mem_singleton.mp hf with rfl
       cases Option.some.inj ht
       decide)⟩

/-- C7: a triangle with resolvable UV indices is serialized by looking each
UV up at its 1-based index and emitting `vec(u*16, (1-v)*16)` per vertex
with 2 decimal digits per component; vertex entries are tab-indented
`vec(x, y, z)` lines with 4 decimal digits per coordinate. -/
theorem c7_uv_transform_and_precision (uvs : List (ℚ × ℚ)) (tri : Tri) (a b c : ℤ)
    (u1 v1 u2 v2 u3 v3 : ℚ) (hne : ¬ uvs = [])
    (h1 : pyIndex uvs (a - 1) = some (u1, v1))
    (h2 : pyIndex uvs (b - 1) = some (u2, v2))
    (h3 : pyIndex uvs (c - 1) = some (u3, v3)) :
    faceLine uvs (tri, some (a, b, c))
      = some ("\t\x7b" ++ toString tri.1 ++ ", " ++ toString tri.2.1 ++ ", " ++ toString tri.2.2
        ++ ", 0, " ++ "vec(" ++ formatFixed 2 (u1 * 16) ++ "," ++ formatFixed 2 ((1 - v1) * 16)
        ++ "), vec(" ++ formatFixed 2 (u2 * 16) ++ "," ++ formatFixed 2 ((1 - v2) * 16)
        ++ "), vec(" ++ formatFixed 2 (u3 * 16) ++ "," ++ formatFixed 2 ((1 - v3) * 16)
        ++ ")\x7d,\n") ∧
    (∀ x : ℚ, ∃ hd digs : String, formatFixed 2 x = hd ++ "." ++ digs ∧ digs.length = 2
      ∧ digs.toList.all Char.isDigit = true ∧ '.' ∉ hd.toList) ∧
    (∀ w : ℚ × ℚ × ℚ, vertLine w = "\tvec(" ++ formatFixed 4 w.1 ++ ", " ++ formatFixed 4 w.2.1
      ++ ", " ++ formatFixed 4 w.2.2 ++ "),\n") ∧
    (∀ x : ℚ, ∃ hd digs : String, formatFixed 4 x = hd ++ "." ++ digs ∧ digs.length = 4
      ∧ digs.toList.all Char.isDigit = true ∧ '.' ∉ hd.toList) := by
  refine ⟨?_, fun x => formatFixed_decomp 2 x, fun w => rfl, fun x => formatFixed_decomp 4 x⟩
  unfold faceLine
  dsimp only
  rw [if_neg hne, h1, h2, h3]

/-- C7 witness: instantiated at the one-element UV sequence `[(0,0)]` with
all three UV indices `1`. -/
theorem c7_uv_transform_and_precision_witness :
    faceLine [(0, 0)] ((1, 2, 3), some (1, 1, 1))
      = some ("\t\x7b" ++ toString (1 : ℤ) ++ ", " ++ toString (2 : ℤ) ++ ", " ++ toString (3 : ℤ)
        ++ ", 0, " ++ "vec(" ++ formatFixed 2 ((0 : ℚ) * 16) ++ "," ++ formatFixed 2 ((1 - (0 : ℚ)) * 16)
        ++ "), vec(" ++ formatFixed 2 ((0 : ℚ) * 16) ++ "," ++ formatFixed 2 ((1 - (0 : ℚ)) * 16)
        ++ "), vec(" ++ formatFixed 2 ((0 : ℚ) * 16) ++ "," ++ formatFixed 2 ((1 - (0 : ℚ)) * 16)
        ++ ")\x7d,\n") ∧
    (∃ hd digs : String, formatFixed 2 0 = hd ++ "." ++ digs ∧ digs.length = 2
      ∧ digs.toList.all Char.isDigit = true ∧ '.' ∉ hd.toList) :=
  ⟨(c7_uv_transform_and_precision [(0, 0)] (1, 2, 3) 1 1 1 0 0 0 0 0 0
      (by decide) rfl rfl rfl).1,
   (c7_uv_transform_and_precision [(0, 0)] (1, 2, 3) 1 1 1 0 0 0 0 0 0
      (by decide) rfl rfl rfl).2.1 0⟩

/-- C4: for any existing input whose lower-cased extension is `.fbx`, the
program prints the fixed re-export-as-OBJ guidance and exits 1, regardless
of the file's contents (the file-system functions are arbitrary) and of
whether the FBX SDK binding was importable. -/
theorem c4_fbx_always_exits1 (hasFbxSdk : Bool) (fs : FS) (prog path : String)
    (rest : List String) (hext : lowerStr (splitextExt path) = ".fbx")
    (hex : fs.pathExists path = true) :
    mainRun hasFbxSdk fs (prog :: path :: rest)
      = RunResult.exit1 ["Error: FBX conversion not supported",
          "Please export your model as OBJ format instead.",
          "Most 3D software (Blender, Maya, 3DS Max, etc.) can export to OBJ."] := by
  unfold mainRun
  rw [if_neg (by simp)]
  rw [show (prog :: path :: rest).getD 1 "" = path from rfl]
  rw [hex, if_neg (by simp), hext, if_pos rfl]
  rfl

/-- C4 witness: the empty existing file `a.FBX` (uppercase extension). -/
theorem c4_fbx_always_exits1_witness :
    mainRun false fsAllEmpty ["p", "a.FBX"]
      = RunResult.exit1 ["Error: FBX conversion not supported",
          "Please export your model as OBJ format instead.",
          "Most 3D software (Blender, Maya, 3DS Max, etc.) can export to OBJ."] :=
  c4_fbx_always_exits1 false fsAllEmpty "p" "a.FBX" [] (by decide) rfl

/-- C5: command-line dispatch — fewer than one positional argument prints
the usage message and exits 1; a nonexistent input prints the
file-not-found message and exits 1 whatever the file contents are; an
existing input whose lower-cased extension is neither `.fbx` nor `.obj`
prints the unsupported-format message and exits 1; the `.obj` extension
dispatches to the OBJ conversion path. -/
theorem c5_cli_dispatch :
    (∀ (hasFbxSdk : Bool) (fs : FS) (argv : List String), argv.length < 2 →
      mainRun hasFbxSdk fs argv = RunResult.exit1 usageMsgs) ∧
    (∀ (hasFbxSdk : Bool) (fs : FS) (prog input : String) (rest : List String),
      fs.pathExists input = false →
      mainRun hasFbxSdk fs (prog :: input :: rest)
        = RunResult.exit1 ["Error: File not found: " ++ input]) ∧
    (∀ (hasFbxSdk : Bool) (fs : FS) (prog input : String) (rest : List String),
      fs.pathExists input = true →
      lowerStr (splitextExt input) ≠ ".fbx" → lowerStr (splitextExt input) ≠ ".obj" →
      mainRun hasFbxSdk fs (prog :: input :: rest)
        = RunResult.exit1 ["Error: Unsupported file format: " ++ lowerStr (splitextExt input),
            "Supported: .fbx, .obj"]) ∧
    (∀ (hasFbxSdk : Bool) (fs : FS) (prog input : String) (rest : List String),
      fs.pathExists input = true → lowerStr (splitextExt input) = ".obj" →
      mainRun hasFbxSdk fs (prog :: input :: rest)
        = convertObjToLua fs input rest.head?) := by
  refine ⟨?_, ?_, ?_, ?_⟩
  · intro hasFbxSdk fs argv h
    unfold mainRun
    rw [if_pos h]
  · intro hasFbxSdk fs prog input rest h
    unfold mainRun
    rw [if_neg (by simp)]
    rw [show (prog :: input :: rest).getD 1 "" = input from rfl]
    rw [h, if_pos rfl]
  · intro hasFbxSdk fs prog input rest hex hfbx hobj
    unfold mainRun
    rw [if_neg (by simp)]
    rw [show (prog :: input :: rest).getD 1 "" = input from rfl]
    rw [hex, if_neg (by simp), if_neg hfbx, if_neg hobj]
  · intro hasFbxSdk fs prog input rest hex hobj
    unfold mainRun
    rw [if_neg (by simp)]
    rw [show (prog :: input :: rest).getD 1 "" = input from rfl]
    rw [hex, if_neg (by simp), hobj]
    rw [if_neg (by decide), if_pos rfl]
    rw [show (prog :: input :: rest).get? 2 = rest.head? from by cases rest <;> rfl]

/-- C5 witness: the four dispatch outcomes at concrete inputs. -/
theorem c5_cli_dispatch_witness :
    mainRun false fsAllEmpty ["p"] = RunResult.exit1 usageMsgs ∧
    mainRun false fsNone ["p", "a.obj"]
      = RunResult.exit1 ["Error: File not found: " ++ "a.obj"] ∧
    mainRun false fsAllEmpty ["p", "a.txt"]
      = RunResult.exit1 ["Error: Unsupported file format: " ++ lowerStr (splitextExt "a.txt"),
          "Supported: .fbx, .obj"] ∧
    mainRun false fsAllEmpty ["p", "a.obj"] = convertObjToLua fsAllEmpty "a.obj" [].head? :=
  ⟨c5_cli_dispatch.1 false fsAllEmpty ["p"] (by decide),
   c5_cli_dispatch.2.1 false fsNone "p" "a.obj" [] rfl,
   c5_cli_dispatch.2.2.1 false fsAllEmpty "p" "a.txt" [] rfl (by decide) (by decide),
   c5_cli_dispatch.2.2.2 false fsAllEmpty "p" "a.obj" [] rfl (by decide)⟩

/-- C8: with exactly one positional argument, every successful conversion
writes to the input path with its extension replaced by `.lua`; in
particular `model.obj` yields `model.lua`. -/
theorem c8_default_output_path :
    (∀ (hasFbxSdk : Bool) (fs : FS) (prog input : String) (m : List String) (o c : String),
      mainRun hasFbxSdk fs [prog, input] = RunResult.ok m o c →
      o = splitextRoot input ++ ".lua") ∧
    splitextRoot "model.obj" ++ ".lua" = "model.lua" := by
  constructor
  · intro hasFbxSdk fs prog input m o c h
    unfold mainRun at h
    rw [if_neg (by simp)] at h
    rw [show ([prog, input].getD 1 "") = input from rfl] at h
    cases hex : fs.pathExists input with
    | false => rw [hex, if_pos rfl] at h; exact RunResult.noConfusion h
    | true =>
      rw [hex, if_neg (by simp)] at h
      by_cases hfbx : lowerStr (splitextExt input) = ".fbx"
      · rw [if_pos hfbx] at h
        unfold convertFbxToLua at h
        exact RunResult.noConfusion h
      · rw [if_neg hfbx] at h
        by_cases hobj : lowerStr (splitextExt input) = ".obj"
        · rw [if_pos hobj] at h
          rw [show ([prog, input].get? 2) = none from rfl] at h
          unfold convertObjToLua at h
          cases hp : parseObjLines (fs.lines input) with
          | none => rw [hp] at h; exact RunResult.noConfusion h
          | some st =>
            rw [hp] at h
            dsimp only at h
            cases hw : writeLuaContent (pyBasename input) st with
            | none => rw [hw] at h; exact RunResult.noConfusion h
            | some content =>
              rw [hw] at h
              have ho := (RunResult.ok.injEq _ _ _ _ _ _).mp h
              rw [← ho.2.1]
              rfl
        · rw [if_neg hobj] at h
          exact RunResult.noConfusion h
  · decide

/-- C8 witness: converting an existing empty `model.obj` with no output
argument writes `model.lua`. -/
theorem c8_default_output_path_witness :
    "model.lua" = splitextRoot "model.obj" ++ ".lua" ∧
    splitextRoot "model.obj" ++ ".lua" = "model.lua" :=
  ⟨c8_default_output_path.1 false fsAllEmpty "p" "model.obj"
      ["Converted model.obj -> model.lua", "Vertices: 0, Faces: 0"] "model.lua"
      "-- Auto-generated from: model.obj\n-- Picotron 3D Engine mesh format\n\nlocal mesh_verts = \x7b\n\x7d\n\nlocal mesh_faces = \x7b\n\x7d\n\nreturn \x7b\n\tverts = mesh_verts,\n\tfaces = mesh_faces,\n\tname = \"mesh\"\n\x7d\n"
      (by decide),
   c8_default_output_path.2⟩
